import Mathlib

/-!
# Verification of the musician-platform real-time messaging gateway

Shallow embedding of the messaging subsystem of the repository:

* `src/routes/websocket.py` — the per-connection session engine
  (`websocket_endpoint`): frame decoding, dispatch by kind, participant
  checks, persistence and fan-out.
* `src/routes/messages.py` — the REST companion surface: `create_thread`,
  `send_message`, `mark_message_read`.
* `src/websocket_manager.py` — `ConnectionManager`: the per-instance
  connection registry and the (never wired) Redis fan-out bus.
* `src/server.py` — the `lifespan` startup sequence.

Machine state (`Store`) models the relational tables `users`,
`direct_message_threads`, `thread_participants` and `direct_messages`;
timestamps are a logical clock (`Store.now : Nat`), message identifiers a
counter (`Store.nextMsgId`), both standing for the database-assigned
`datetime.now` / UUID values.

The session generator `database.get_db` is not part of the sources; per the
design it is the standard single-acquisition store handle (one session
yielded per `async for db in get_db()` loop).  That single-yield behaviour
is what the control-flow of the embedding reflects: a `continue` statement
written inside such an `async for` block only exhausts the inner loop and
then *falls through* to the code after it, rather than returning to the
outer receive loop.
-/

namespace Gateway

/-- A row of `direct_messages` (src/models.py, class `DirectMessage`). -/
structure Msg where
  id : Nat
  thread_id : String
  sender_id : String
  content : String
  attachments : List String
  read_by : List String
  created_at : Nat
deriving DecidableEq, Repr

/-- A row of `direct_message_threads` (src/models.py,
class `DirectMessageThread`); only the fields the claims touch. -/
structure Thread where
  id : String
  updatedAt : Nat
deriving DecidableEq, Repr

/-- The relational collaborator: `users`, `direct_message_threads`,
`thread_participants` (pairs `(thread_id, user_id)`) and
`direct_messages`, plus the logical clock and the id counter. -/
structure Store where
  users : List String
  threads : List Thread
  participants : List (String × String)
  messages : List Msg
  nextMsgId : Nat
  now : Nat
deriving DecidableEq, Repr

/-- The membership query used at src/routes/websocket.py:80-89 and
src/routes/messages.py:142-150: a `thread_participants` row with this
`thread_id` and `user_id` exists. -/
def isParticipant (st : Store) (tid uid : String) : Bool :=
  st.participants.contains (tid, uid)

/-- The participant query at src/routes/websocket.py:110-115:
all `user_id`s of rows with this `thread_id`. -/
def participantsOf (st : Store) (tid : String) : List String :=
  (st.participants.filter (fun r => r.1 == tid)).map (fun r => r.2)

/-- Python falsiness of an optional JSON string field (`if not thread_id`):
absent or empty. -/
def falsy : Option String → Bool
  | none => true
  | some s => s.isEmpty

/-- Outbound fan-out payloads (the dict literals built in
src/routes/websocket.py at lines 120-130, 150-155 and 192-197). -/
inductive Payload
  | newMessage (id : Nat) (thread_id sender_id content : String)
      (attachments : List String) (created_at : Nat)
  | typing (thread_id user_id : String) (is_typing : Bool)
  | readReceipt (message_id : Nat) (thread_id user_id : String)
deriving DecidableEq, Repr

/-- Observable effects of handling one inbound frame.  `publishBus` models
`ConnectionManager.publish_message` (src/websocket_manager.py:67-73); it is
a constructor of the effect type so that its absence from every trace can
be stated, since no handler ever calls it. -/
inductive Event
  | sendError (msg : String)
  | sendPong
  | commitMessage (m : Msg)
  | broadcast (p : Payload) (recipients : List String)
  | publishBus (p : Payload)
deriving DecidableEq, Repr

/-- One decoded inbound frame.  `unknown` is a JSON object whose `type` is
absent or matches no branch; `malformed` is input `json.loads` rejects.
Identifiers that may be absent or empty are `Option`s (`none` = falsy);
the client-supplied `message_id` is modelled on the message-id counter. -/
inductive Frame
  | message (thread_id content : Option String) (attachments : List String)
  | typing (thread_id : Option String) (is_typing : Bool)
  | read_receipt (message_id : Option Nat) (thread_id : Option String)
  | ping
  | unknown
  | malformed
deriving DecidableEq, Repr

/-- The Python function-local variables of `websocket_endpoint` that
survive from one iteration of the receive loop to the next and are read
by a later iteration: `new_message` and `participant_ids`.  `none` means
the name is still unbound. -/
structure SessionVars where
  new_message : Option Msg
  participant_ids : Option (List String)
deriving DecidableEq, Repr

/-- Fresh locals at connection time. -/
def SessionVars.init : SessionVars := ⟨none, none⟩

/-- Outcome of handling one frame: `next` stays in the Serving state with
the emitted events, updated locals and store; `crashed` means an exception
escaped the frame handler — since the `try` of `websocket_endpoint` wraps
the whole `while True` loop (src/routes/websocket.py:50-210), the loop
exits, the `finally` unregisters the connection, and the session is over. -/
inductive StepResult
  | next (events : List Event) (vars : SessionVars) (store : Store)
  | crashed (events : List Event) (store : Store)
deriving DecidableEq, Repr

/-- Events of a step outcome. -/
def StepResult.events : StepResult → List Event
  | .next es _ _ => es
  | .crashed es _ => es

/-- Store after a step outcome. -/
def StepResult.store : StepResult → Store
  | .next _ _ st => st
  | .crashed _ st => st

/-- The `message` branch (src/routes/websocket.py:66-132).  On the
not-a-participant path the source sends the error frame and executes
`continue` *inside* `async for db in get_db()` (line 94); the single-yield
session generator is then exhausted, so control falls through to the
broadcast block at line 119, which reads `new_message` and
`participant_ids`: unbound on a fresh session (`NameError` escapes — the
session crashes), otherwise stale values from an earlier iteration are
broadcast, with the *current* `thread_id`, `content` and `user_id` spliced
into the payload dict. -/
def handleMessage (uid : String) (v : SessionVars) (st : Store)
    (thread_id content : Option String) (atts : List String) : StepResult :=
  if falsy thread_id || falsy content then
    .next [.sendError "Missing thread_id or content"] v st
  else
    let tid := thread_id.getD ""
    let c := content.getD ""
    if isParticipant st tid uid then
      let m : Msg :=
        { id := st.nextMsgId, thread_id := tid, sender_id := uid,
          content := c, attachments := atts, read_by := [uid],
          created_at := st.now }
      let st' := { st with messages := st.messages ++ [m],
                           nextMsgId := st.nextMsgId + 1 }
      let pids := participantsOf st' tid
      let bm := Payload.newMessage m.id tid uid c m.attachments m.created_at
      .next [.commitMessage m, .broadcast bm pids]
        { new_message := some m, participant_ids := some pids } st'
    else
      match v.new_message, v.participant_ids with
      | some m, some pids =>
        let bm := Payload.newMessage m.id tid uid c m.attachments m.created_at
        .next [.sendError "Not a participant in this thread",
               .broadcast bm pids] v st
      | _, _ =>
        .crashed [.sendError "Not a participant in this thread"] st

/-- Replace `read_by` of the message keyed by `(message_id, thread_id)`
(the filter of the queries at src/routes/websocket.py:166-173 and
src/routes/messages.py:208-215). -/
def setReadBy (st : Store) (mid : Nat) (tid : String)
    (rb : List String) : Store :=
  { st with messages :=
      st.messages.map (fun m =>
        if m.id == mid && m.thread_id == tid then
          { m with read_by := rb }
        else m) }

/-- Lookup of the message keyed by `(message_id, thread_id)`. -/
def findMsg (st : Store) (mid : Nat) (tid : String) : Option Msg :=
  st.messages.find? (fun m => m.id == mid && m.thread_id == tid)

/-- The `read_receipt` branch (src/routes/websocket.py:159-199).  When the
message is not found, `participant_ids` is never rebound inside the db
block, yet the broadcast at line 199 still runs: it uses the stale value,
or raises `NameError` if the name is unbound. -/
def handleReadReceipt (uid : String) (v : SessionVars) (st : Store)
    (message_id : Option Nat) (thread_id : Option String) : StepResult :=
  match message_id, thread_id with
  | some mid, some tid =>
    if tid.isEmpty then .next [] v st
    else
      match findMsg st mid tid with
      | some m =>
        let rb := m.read_by
        let rb' := if uid ∈ rb then rb else rb ++ [uid]
        let st' := if uid ∈ rb then st else setReadBy st mid tid rb'
        let pids := participantsOf st' tid
        .next [.broadcast (Payload.readReceipt mid tid uid) pids]
          { v with participant_ids := some pids } st'
      | none =>
        match v.participant_ids with
        | some pids =>
          .next [.broadcast (Payload.readReceipt mid tid uid) pids] v st
        | none => .crashed [] st
  | _, _ => .next [] v st

/-- Dispatch of one decoded frame (the body of the `while True` loop,
src/routes/websocket.py:59-203).  An unrecognized `type` matches no
branch: nothing is sent and the loop continues.  Malformed input makes
`json.loads` (line 62) raise before dispatch: no event, session over. -/
def handleFrame (uid : String) (v : SessionVars) (st : Store) :
    Frame → StepResult
  | .message thread_id content atts => handleMessage uid v st thread_id content atts
  | .typing thread_id is_typing =>
    if falsy thread_id then .next [] v st
    else
      let tid := thread_id.getD ""
      let pids := (participantsOf st tid).filter (fun p => p != uid)
      .next [.broadcast (Payload.typing tid uid is_typing) pids]
        { v with participant_ids := some pids } st
  | .read_receipt message_id thread_id => handleReadReceipt uid v st message_id thread_id
  | .ping => .next [.sendPong] v st
  | .unknown => .next [] v st
  | .malformed => .crashed [] st

/-- The receive loop: process frames until one crashes the session.
Returns the concatenated events, the final store, and whether the session
is still in the Serving state. -/
def runSession (uid : String) : SessionVars → Store → List Frame →
    List Event × Store × Bool
  | _, st, [] => ([], st, true)
  | v, st, f :: fs =>
    match handleFrame uid v st f with
    | .next es v' st' =>
      let r := runSession uid v' st' fs
      (es ++ r.1, r.2.1, r.2.2)
    | .crashed es st' => (es, st', false)

/-! ## REST companion surface (src/routes/messages.py) -/

/-- HTTP-level failures of the REST handlers.  `multipleResults` is the
`sqlalchemy.exc.MultipleResultsFound` that `scalar_one_or_none()` raises
when the dedup lookup of `create_thread` matches more than one row. -/
inductive RestErr
  | forbidden
  | notFound (detail : String)
  | multipleResults
deriving DecidableEq, Repr

/-- The thread rows matched by the dedup subquery of `create_thread`
(src/routes/messages.py:38-47): threads for which the number of
`thread_participants` rows whose `user_id` lies in `pset` equals 2. -/
def dedupMatches (st : Store) (pset : List String) : List Thread :=
  st.threads.filter (fun t =>
    (st.participants.filter
      (fun r => r.1 == t.id && pset.contains r.2)).length == 2)

/-- `POST /messages/threads` (src/routes/messages.py:13-69).  The caller's
identity is added to the deduplicated participant set before anything
else; all participants must exist; for a two-identity set the dedup
lookup runs through `scalar_one_or_none()`; otherwise a fresh thread and
its participant rows are inserted.  `newId` stands for the UUID the
database assigns to the new row. -/
def create_thread (st : Store) (caller : String) (participant_ids : List String)
    (newId : String) : Except RestErr (Store × String) :=
  let pset := (participant_ids ++ [caller]).dedup
  if (st.users.filter (fun u => pset.contains u)).length != pset.length then
    .error (.notFound "One or more participants not found")
  else
    let create : Except RestErr (Store × String) :=
      .ok ({ st with
               threads := st.threads ++ [⟨newId, st.now⟩],
               participants :=
                 st.participants ++ pset.map (fun u => (newId, u)) },
           newId)
    if pset.length == 2 then
      match dedupMatches st pset with
      | [] => create
      | [t] => .ok (st, t.id)
      | _ => .error .multipleResults
    else create

/-- `POST /messages/threads/{thread_id}/messages`
(src/routes/messages.py:134-181): participant check, insert the message
with `read_by = [sender]`, bump the thread's `updated_at` when its row is
found, commit. -/
def send_message (st : Store) (uid tid content : String)
    (atts : List String) : Except RestErr (Store × Msg) :=
  if !isParticipant st tid uid then .error .forbidden
  else
    let m : Msg :=
      { id := st.nextMsgId, thread_id := tid, sender_id := uid,
        content := content, attachments := atts, read_by := [uid],
        created_at := st.now }
    let st1 := { st with messages := st.messages ++ [m],
                         nextMsgId := st.nextMsgId + 1 }
    let st2 :=
      match st1.threads.find? (fun t => t.id == tid) with
      | some _ =>
        { st1 with threads :=
            st1.threads.map (fun t =>
              if t.id == tid then { t with updatedAt := st.now } else t) }
      | none => st1
    .ok (st2, m)

/-- `POST /messages/threads/{thread_id}/messages/{message_id}/read`
(src/routes/messages.py:184-233): participant check, message lookup, then
append the caller to `read_by` only when absent. -/
def mark_message_read (st : Store) (uid : String) (tid : String)
    (mid : Nat) : Except RestErr Store :=
  if !isParticipant st tid uid then .error .forbidden
  else
    match findMsg st mid tid with
    | none => .error (.notFound "Message not found")
    | some m =>
      let rb := m.read_by
      if uid ∈ rb then .ok st
      else .ok (setReadBy st mid tid (rb ++ [uid]))

/-! ## Connection registry (src/websocket_manager.py, `ConnectionManager`) -/

/-- One live WebSocket of one user on this instance; `ok` abstracts
whether `send_json` on it succeeds or raises. -/
structure Conn where
  id : Nat
  ok : Bool
deriving DecidableEq, Repr

/-- `active_connections`: the per-instance map user id → set of open
connections, as an association list with pairwise-distinct keys. -/
abbrev Registry := List (String × List Conn)

/-- Dictionary lookup in `active_connections`. -/
def connsOf : Registry → String → Option (List Conn)
  | [], _ => none
  | e :: rest, uid => if e.1 = uid then some e.2 else connsOf rest uid

/-- `ConnectionManager.disconnect` (src/websocket_manager.py:39-45):
discard the connection from the user's set and drop the entry when the
set becomes empty. -/
def disconnect : Registry → String → Conn → Registry
  | [], _, _ => []
  | e :: rest, uid, c =>
    if e.1 = uid then
      let l := e.2.erase c
      if l.isEmpty then rest else (e.1, l) :: rest
    else e :: disconnect rest uid c

/-- `ConnectionManager.send_personal_message`
(src/websocket_manager.py:47-60): try `send_json` on every connection of
the user; a raise is caught, logged and the connection collected, then
each collected connection is unregistered after the loop.  Returns the
connections the payload reached (in iteration order) and the registry
after cleanup; no exception ever propagates. -/
def send_personal_message (reg : Registry) (uid : String) :
    List Conn × Registry :=
  match connsOf reg uid with
  | none => ([], reg)
  | some conns =>
    let delivered := conns.filter (fun c => c.ok)
    let disconnected := conns.filter (fun c => !c.ok)
    (delivered, disconnected.foldl (fun r c => disconnect r uid c) reg)

/-- `ConnectionManager.broadcast_to_thread`
(src/websocket_manager.py:62-65): `send_personal_message` once per listed
participant. -/
def broadcast_to_thread (reg : Registry) (pids : List String) : Registry :=
  pids.foldl (fun r uid => (send_personal_message r uid).2) reg

/-! ## Instance startup (src/server.py `lifespan`,
src/websocket_manager.py `ConnectionManager.initialize`) -/

/-- What `ConnectionManager.initialize` can do.  `startListenerTask` would
be the spawning of a task running `handle_redis_messages`
(src/websocket_manager.py:75-88); the constructor exists so its absence
from the actual effect list is expressible. -/
inductive ManagerInitEffect
  | connectRedis
  | createPubsub
  | subscribeChannel (chan : String)
  | startListenerTask
deriving DecidableEq, Repr

/-- The effects `ConnectionManager.initialize` actually performs
(src/websocket_manager.py:21-29): connect, create the pubsub object,
subscribe to the `messages` channel — and nothing else; in particular no
task consuming the subscription is ever started. -/
def initEffects : List ManagerInitEffect :=
  [.connectRedis, .createPubsub, .subscribeChannel "messages"]

/-- The startup actions of the application `lifespan` (src/server.py:29-43):
initialize the database, then run `ConnectionManager.initialize`. -/
inductive LifespanAction
  | initDatabase
  | managerInit (effects : List ManagerInitEffect)
deriving DecidableEq, Repr

/-- The `lifespan` startup sequence as written. -/
def lifespanStartup : List LifespanAction :=
  [.initDatabase, .managerInit initEffects]

/-! ## Derived notions used by the statements -/

/-- `updated_at` of the thread row with this id, when present. -/
def updatedAtOf (st : Store) (tid : String) : Option Nat :=
  (st.threads.find? (fun t => t.id == tid)).map (fun t => t.updatedAt)

/-- `read_by` of the message keyed by `(message_id, thread_id)`
(`[]` when the message is absent). -/
def readOf (st : Store) (mid : Nat) (tid : String) : List String :=
  ((findMsg st mid tid).map (fun m => m.read_by)).getD []

/-- Whether an event is a publish on the Distributed Fan-out Bus. -/
def isBusPublish : Event → Bool
  | .publishBus _ => true
  | _ => false

/-- The thread `tid` has every identity of `pset` among its participants. -/
def containsAllB (st : Store) (tid : String) (pset : List String) : Bool :=
  pset.all (fun u => st.participants.contains (tid, u))

/-- Every delivery of a broadcast payload in the trace is strictly
preceded by a store commit of a message that is in the store. -/
def commitBeforeBroadcasts (es : List Event) (st : Store) : Prop :=
  ∀ (j : Nat) p pids, es[j]? = some (Event.broadcast p pids) →
    ∃ i : Nat, ∃ m, i < j ∧ es[i]? = some (Event.commitMessage m) ∧
      m ∈ st.messages

/-! ## Concrete machines used by counterexamples and witnesses -/

/-- Thread `T1` has the single participant `u2`; `u1` exists but is not a
participant. -/
def npStore : Store :=
  ⟨["u1", "u2"], [⟨"T1", 0⟩], [("T1", "u2")], [], 0, 5⟩

/-- Thread `T1` with participants `u1` and `u2`, `updated_at = 0`,
current clock `5`. -/
def wsStore : Store :=
  ⟨["u1", "u2"], [⟨"T1", 0⟩], [("T1", "u1"), ("T1", "u2")], [], 0, 5⟩

/-- `T1` is exactly the two-party thread of `A` and `B`; `T2` is a group
thread whose participants strictly contain both. -/
def dupStore : Store :=
  ⟨["A", "B", "C"], [⟨"T1", 0⟩, ⟨"T2", 0⟩],
   [("T1", "A"), ("T1", "B"), ("T2", "A"), ("T2", "B"), ("T2", "C")],
   [], 0, 7⟩

/-- A single existing thread: exactly the two-party thread of `A`, `B`. -/
def exactStore : Store :=
  ⟨["A", "B", "C"], [⟨"T1", 0⟩], [("T1", "A"), ("T1", "B")], [], 0, 7⟩

/-- A single existing thread `T2` whose participant set `{A, B, C}`
strictly contains `{A, B}`. -/
def superStore : Store :=
  ⟨["A", "B", "C"], [⟨"T2", 0⟩], [("T2", "A"), ("T2", "B"), ("T2", "C")],
   [], 0, 7⟩

/-- Two distinct group threads, both containing `A` and `B`. -/
def super2Store : Store :=
  ⟨["A", "B", "C", "D"], [⟨"T2", 0⟩, ⟨"T3", 0⟩],
   [("T2", "A"), ("T2", "B"), ("T2", "C"),
    ("T3", "A"), ("T3", "B"), ("T3", "D")],
   [], 0, 7⟩

/-- No thread yet; users `A` and `B` exist. -/
def freshStore : Store := ⟨["A", "B"], [], [], [], 0, 7⟩

/-! ## C1 — not-a-participant `message` frame -/

/-- C1: the claim states that for a `message` frame from a non-participant
the engine sends exactly the error frame, creates no Message, and the
connection stays open in the Serving state.  Evaluating the engine at the
failing input — a fresh session whose first frame is a `message` for a
thread the sender does not belong to — shows the error frame is sent and
no message is created, but the `continue` at src/routes/websocket.py:94
only exhausts the inner `async for db in get_db()` loop, so control falls
into the broadcast block at line 119 where `new_message` is unbound: the
`NameError` escapes the receive loop and the session ends instead of
staying in Serving. -/
theorem c1_not_participant_crashes_session :
    handleFrame "u1" SessionVars.init npStore
        (Frame.message (some "T1") (some "hello") []) =
      StepResult.crashed [Event.sendError "Not a participant in this thread"]
        npStore ∧
    npStore.messages = [] ∧
    runSession "u1" SessionVars.init npStore
        [Frame.message (some "T1") (some "hello") [], Frame.ping] =
      ([Event.sendError "Not a participant in this thread"], npStore, false) := by
  refine ⟨by decide, rfl, by decide⟩

/-! ## C2 — cross-instance delivery over the fan-out bus -/

/-- C2: the claim states that every accepted message frame is also
published on the Distributed Fan-out Bus and that a subscription loop
started at instance startup delivers bus payloads to local connections.
In the source, no frame handler ever calls
`ConnectionManager.publish_message`, and `ConnectionManager.initialize`
(the only manager call of the `lifespan` startup) subscribes to the
channel but never starts a task running `handle_redis_messages`: no trace
of any frame contains a bus publish, and the startup effect list contains
no listener start. -/
theorem c2_no_bus_publish_and_no_listener :
    (∀ uid v st f,
      ((handleFrame uid v st f).events.all
        (fun e => !(isBusPublish e))) = true) ∧
    (initEffects.all
      (fun e => e != ManagerInitEffect.startListenerTask)) = true := by
  constructor
  · intro uid v st f
    cases f with
    | message thread_id content atts =>
      simp only [handleFrame, handleMessage]
      split
      · rfl
      · split
        · rfl
        · split
          · rfl
          · rfl
    | typing thread_id is_typing =>
      simp only [handleFrame]
      split
      · rfl
      · rfl
    | read_receipt message_id thread_id =>
      simp only [handleFrame, handleReadReceipt]
      split
      · split
        · rfl
        · split
          · rfl
          · split
            · rfl
            · rfl
      · rfl
    | ping => rfl
    | unknown => rfl
    | malformed => rfl
  · rfl

/-! ## C3 — unrecognized kind / malformed payload -/

/-- C3 counterexample: the claim states that for an unrecognized frame
kind or a malformed payload the engine responds with an error frame and
remains in Serving.  At a concrete input, an unrecognized kind produces
*no* outbound frame at all (the event trace is empty), and a malformed
payload terminates the session (the `json.loads` exception propagates out
of the receive loop) — also without an error frame. -/
theorem c3_counterexample :
    (handleFrame "u1" SessionVars.init npStore Frame.unknown).events = [] ∧
    handleFrame "u1" SessionVars.init npStore Frame.malformed =
      StepResult.crashed [] npStore := ⟨rfl, rfl⟩

/-- C3 as amended: a frame of unrecognized kind is silently ignored — no
frame is sent in response — and the session remains in Serving, still
processing subsequent frames; a malformed payload raises out of the
receive loop (the `try` wraps the whole loop, there is no per-frame
catch), terminating the session without an error frame so no subsequent
frame is processed. -/
theorem c3_amended_unknown_ignored_malformed_fatal :
    ∀ uid v st,
      handleFrame uid v st Frame.unknown = StepResult.next [] v st ∧
      handleFrame uid v st Frame.malformed = StepResult.crashed [] st ∧
      runSession uid v st [Frame.unknown, Frame.ping] =
        ([Event.sendPong], st, true) ∧
      runSession uid v st [Frame.malformed, Frame.ping] = ([], st, false) :=
  fun _ _ _ => ⟨rfl, rfl, rfl, rfl⟩

/-! ## C4 — persistence strictly precedes fan-out -/

/-- Reduction of the accepted-message path of the `message` branch. -/
theorem handleMessage_accepted (uid : String) (v : SessionVars) (st : Store)
    (tid content : String) (atts : List String)
    (h1 : tid.isEmpty = false) (h2 : content.isEmpty = false)
    (hpart : isParticipant st tid uid = true) :
    handleMessage uid v st (some tid) (some content) atts =
      StepResult.next
        [Event.commitMessage
           ⟨st.nextMsgId, tid, uid, content, atts, [uid], st.now⟩,
         Event.broadcast
           (Payload.newMessage st.nextMsgId tid uid content atts st.now)
           (participantsOf st tid)]
        ⟨some ⟨st.nextMsgId, tid, uid, content, atts, [uid], st.now⟩,
         some (participantsOf st tid)⟩
        { st with
            messages := st.messages ++
              [⟨st.nextMsgId, tid, uid, content, atts, [uid], st.now⟩],
            nextMsgId := st.nextMsgId + 1 } := by
  unfold handleMessage
  simp [falsy, h1, h2, hpart, participantsOf]

/-- C4: for every accepted `message` frame — present, non-empty
`thread_id` and `content`, sender a participant — the handler returns to
Serving with a trace in which a broadcast delivery occurs and every
broadcast is strictly preceded by the commit of a message that is in the
resulting store (src/routes/websocket.py:96-132: `db.add`/`db.commit` at
lines 105-106 come before `broadcast_to_thread` at line 132). -/
theorem c4_persist_before_broadcast :
    ∀ uid v st tid content atts,
      tid ≠ "" → content ≠ "" → isParticipant st tid uid = true →
      ∃ es v' st',
        handleFrame uid v st (Frame.message (some tid) (some content) atts) =
          StepResult.next es v' st' ∧
        commitBeforeBroadcasts es st' ∧
        ∃ j : Nat, ∃ p pids, es[j]? = some (Event.broadcast p pids) := by
  intro uid v st tid content atts htid hcontent hpart
  have hf1 : tid.isEmpty = false := by
    cases h : tid.isEmpty
    · rfl
    · exact absurd ((String.isEmpty_iff tid).mp h) htid
  have hf2 : content.isEmpty = false := by
    cases h : content.isEmpty
    · rfl
    · exact absurd ((String.isEmpty_iff content).mp h) hcontent
  have hstep := handleMessage_accepted uid v st tid content atts hf1 hf2 hpart
  refine ⟨_, _, _, hstep, ?_, ?_⟩
  · intro j p pids hj
    match j with
    | 0 => simp at hj
    | 1 =>
      refine ⟨0, _, Nat.zero_lt_one, rfl, ?_⟩
      exact List.mem_append_right _ (List.mem_singleton.mpr rfl)
    | (n + 2) => simp at hj
  · exact ⟨1, _, _, rfl⟩

/-- C4 witness: an accepted message frame on a concrete machine. -/
theorem c4_witness :
    ∃ es v' st',
      handleFrame "u1" SessionVars.init wsStore
          (Frame.message (some "T1") (some "hi") []) =
        StepResult.next es v' st' ∧
      commitBeforeBroadcasts es st' ∧
      ∃ j : Nat, ∃ p pids, es[j]? = some (Event.broadcast p pids) :=
  c4_persist_before_broadcast "u1" SessionVars.init wsStore "T1" "hi" []
    (by decide) (by decide) (by decide)

/-! ## C5 — bump of the thread's `updated_at` -/

/-- Bumping `updatedAt` of every thread row with the matching id makes the
looked-up `updated_at` the new clock value, provided the row exists. -/
theorem find_bump_updatedAt (l : List Thread) (tid : String) (nw : Nat) :
    (l.find? (fun t => t.id == tid)).isSome = true →
    ((l.map (fun t =>
        if t.id == tid then { t with updatedAt := nw } else t)).find?
      (fun t => t.id == tid)).map (fun t => t.updatedAt) = some nw := by
  induction l with
  | nil => intro h; simp [List.find?] at h
  | cons a l ih =>
    intro h
    cases ha : (a.id == tid) with
    | true =>
      rw [List.map_cons, if_pos ha, List.find?_cons_of_pos]
      · rfl
      · simpa using ha
    | false =>
      rw [List.map_cons, if_neg (by simp [ha]),
        List.find?_cons_of_neg _ (by simp [ha])]
      apply ih
      rwa [List.find?_cons_of_neg _ (by simp [ha])] at h

/-- C5 as amended: only the REST send-message endpoint bumps the
containing thread's `updated_at` (src/routes/messages.py:168-175); the
WebSocket `message` path persists the message without ever touching any
thread row — the threads table is unchanged by every outcome of a
WebSocket `message` frame. -/
theorem c5_amended_rest_bumps_ws_does_not :
    ∀ st uid tid content atts v,
      ((handleFrame uid v st
          (Frame.message (some tid) (some content) atts)).store).threads =
        st.threads ∧
      (isParticipant st tid uid = true →
        (st.threads.find? (fun t => t.id == tid)).isSome = true →
        ∃ st' m, send_message st uid tid content atts = Except.ok (st', m) ∧
          updatedAtOf st' tid = some st.now) := by
  intro st uid tid content atts v
  constructor
  · simp only [handleFrame, handleMessage]
    split
    · rfl
    · split
      · rfl
      · split
        · rfl
        · rfl
  · intro hpart hfind
    rcases Option.isSome_iff_exists.mp hfind with ⟨t, ht⟩
    have hsend : send_message st uid tid content atts =
        Except.ok
          ({ st with
               messages := st.messages ++
                 [⟨st.nextMsgId, tid, uid, content, atts, [uid], st.now⟩],
               nextMsgId := st.nextMsgId + 1,
               threads := st.threads.map (fun t =>
                 if t.id == tid then { t with updatedAt := st.now } else t) },
           ⟨st.nextMsgId, tid, uid, content, atts, [uid], st.now⟩) := by
      unfold send_message
      rw [hpart]
      simp [ht]
    refine ⟨_, _, hsend, ?_⟩
    simpa [updatedAtOf] using find_bump_updatedAt st.threads tid st.now hfind

/-- C5 witness: on a concrete machine the REST path returns success with
`updated_at` bumped to the clock, and the WebSocket path leaves the
threads table unchanged. -/
theorem c5_witness :
    ((handleFrame "u1" SessionVars.init wsStore
        (Frame.message (some "T1") (some "hi") [])).store).threads =
      wsStore.threads ∧
    ∃ st' m, send_message wsStore "u1" "T1" "hi" [] = Except.ok (st', m) ∧
      updatedAtOf st' "T1" = some wsStore.now :=
  ⟨(c5_amended_rest_bumps_ws_does_not wsStore "u1" "T1" "hi" []
      SessionVars.init).1,
   (c5_amended_rest_bumps_ws_does_not wsStore "u1" "T1" "hi" []
      SessionVars.init).2 (by decide) (by decide)⟩

/-- C5 counterexample: an *accepted* WebSocket message frame on a concrete
machine — a Message is persisted — after which the containing thread's
`updated_at` still holds its old value `0` although the clock at handling
time is `5`: the bump the claim requires for every accepted message does
not happen on the WebSocket path. -/
theorem c5_counterexample_ws_no_bump :
    (∃ m, ((handleFrame "u1" SessionVars.init wsStore
        (Frame.message (some "T1") (some "hi") [])).store).messages = [m]) ∧
    updatedAtOf ((handleFrame "u1" SessionVars.init wsStore
        (Frame.message (some "T1") (some "hi") [])).store) "T1" = some 0 ∧
    wsStore.now = 5 ∧ updatedAtOf wsStore "T1" = some 0 := by
  exact ⟨⟨_, rfl⟩, by decide, rfl, by decide⟩

/-! ## C7 — `read_by` monotonicity -/

/-- One read-acknowledgement operation: a WebSocket `read_receipt` frame
or a REST mark-message-read call, each identified by its caller and the
`(message_id, thread_id)` pair it targets. -/
inductive ReadOp
  | ws (uid : String) (mid : Nat) (tid : String)
  | rest (uid : String) (mid : Nat) (tid : String)
deriving DecidableEq, Repr

/-- The identity performing the operation. -/
def ReadOp.caller : ReadOp → String
  | .ws u _ _ => u
  | .rest u _ _ => u

/-- Store effect of one read-acknowledgement operation: the WebSocket
frame goes through the session engine (its store effect does not depend
on the session locals); the REST call leaves the store unchanged when it
errors. -/
def applyReadOp (st : Store) : ReadOp → Store
  | .ws uid mid tid =>
    (handleFrame uid SessionVars.init st
      (Frame.read_receipt (some mid) (some tid))).store
  | .rest uid mid tid =>
    match mark_message_read st uid tid mid with
    | .ok st' => st'
    | .error _ => st

/-- `setReadBy` only rewrites `read_by`, so the keyed lookup commutes with
it, applying the conditional rewrite to the found message. -/
theorem findMsg_setReadBy (st : Store) (mid mid' : Nat) (tid tid' : String)
    (rb : List String) :
    findMsg (setReadBy st mid' tid' rb) mid tid =
      (findMsg st mid tid).map (fun m =>
        if m.id == mid' && m.thread_id == tid' then { m with read_by := rb }
        else m) := by
  unfold findMsg setReadBy
  rw [List.find?_map]
  have hp : ((fun m : Msg => m.id == mid && m.thread_id == tid) ∘
      (fun m : Msg =>
        if m.id == mid' && m.thread_id == tid' then { m with read_by := rb }
        else m)) = (fun m : Msg => m.id == mid && m.thread_id == tid) := by
    funext m
    show (fun m : Msg => m.id == mid && m.thread_id == tid)
        (if m.id == mid' && m.thread_id == tid' then { m with read_by := rb }
         else m) = _
    cases hc : (m.id == mid' && m.thread_id == tid') <;> rfl
  rw [hp]

/-- Appending one identity to the `read_by` of the message keyed by
`(mid', tid')` either leaves any keyed `read_by` unchanged or appends
exactly that identity to it. -/
theorem readOf_setReadBy_or (st : Store) (uid : String) (mid mid' : Nat)
    (tid tid' : String) (m' : Msg) (hm' : findMsg st mid' tid' = some m') :
    readOf (setReadBy st mid' tid' (m'.read_by ++ [uid])) mid tid =
      readOf st mid tid ∨
    readOf (setReadBy st mid' tid' (m'.read_by ++ [uid])) mid tid =
      readOf st mid tid ++ [uid] := by
  unfold readOf
  rw [findMsg_setReadBy]
  cases hfound : findMsg st mid tid with
  | none => left; rfl
  | some m₂ =>
    by_cases hc : (m₂.id == mid' && m₂.thread_id == tid') = true
    · right
      have hpred := List.find?_some hfound
      have hid : m₂.id = mid := by
        have := (Bool.and_eq_true _ _).mp hpred
        exact eq_of_beq this.1
      have hth : m₂.thread_id = tid := by
        have := (Bool.and_eq_true _ _).mp hpred
        exact eq_of_beq this.2
      have hid' : mid = mid' := by
        have := (Bool.and_eq_true _ _).mp hc
        exact hid ▸ eq_of_beq this.1
      have hth' : tid = tid' := by
        have := (Bool.and_eq_true _ _).mp hc
        exact hth ▸ eq_of_beq this.2
      have hsame : m' = m₂ := by
        have h2 : findMsg st mid' tid' = some m₂ := by
          rw [← hid', ← hth']; exact hfound
        exact Option.some_injective _ (hm' ▸ h2)
      show ((if m₂.id == mid' && m₂.thread_id == tid'
          then { m₂ with read_by := m'.read_by ++ [uid] } else m₂)).read_by =
        m₂.read_by ++ [uid]
      rw [if_pos hc, hsame]
    · left
      show ((if m₂.id == mid' && m₂.thread_id == tid'
          then { m₂ with read_by := m'.read_by ++ [uid] } else m₂)).read_by =
        m₂.read_by
      rw [if_neg hc]

/-- Per-operation evolution of a keyed `read_by`: unchanged, or with
exactly the caller appended. -/
theorem applyReadOp_grows (st : Store) (op : ReadOp) (mid : Nat)
    (tid : String) :
    readOf (applyReadOp st op) mid tid = readOf st mid tid ∨
    readOf (applyReadOp st op) mid tid = readOf st mid tid ++ [op.caller] := by
  cases op with
  | ws uid mid' tid' =>
    simp only [applyReadOp, ReadOp.caller, handleFrame, handleReadReceipt]
    by_cases hemp : tid'.isEmpty = true
    · left; simp [hemp, StepResult.store]
    · rw [if_neg (by simpa using hemp)]
      cases hm : findMsg st mid' tid' with
      | none => left; rfl
      | some m =>
        simp only [hm]
        by_cases hin : uid ∈ m.read_by
        · left; simp [hin, StepResult.store]
        · rw [if_neg hin, if_neg hin]
          exact readOf_setReadBy_or st uid mid mid' tid tid' m hm
  | rest uid mid' tid' =>
    simp only [applyReadOp, ReadOp.caller, mark_message_read]
    by_cases hpart : isParticipant st tid' uid = true
    · rw [hpart]
      cases hm : findMsg st mid' tid' with
      | none => left; rfl
      | some m =>
        simp only
        by_cases hin : uid ∈ m.read_by
        · left; simp [hin]
        · rw [if_neg hin]
          exact readOf_setReadBy_or st uid mid mid' tid tid' m hm
    · left
      rw [Bool.not_eq_true] at hpart
      rw [hpart]
      rfl

/-- C7: over every sequence of WebSocket `read_receipt` frames and REST
mark-message-read calls, the `read_by` of every message is non-decreasing:
each single operation either leaves it unchanged or appends exactly the
caller's identity (src/routes/websocket.py:177-181,
src/routes/messages.py:225-231 — both only ever `append` when the caller
is absent), and consequently the initial `read_by` is a prefix of the
final one; no identity is ever removed and the set is never overwritten
with one missing a previous member. -/
theorem c7_read_monotonicity :
    ∀ st mid tid,
      (∀ op : ReadOp,
        readOf (applyReadOp st op) mid tid = readOf st mid tid ∨
        readOf (applyReadOp st op) mid tid =
          readOf st mid tid ++ [op.caller]) ∧
      ∀ ops : List ReadOp,
        readOf st mid tid <+: readOf (ops.foldl applyReadOp st) mid tid := by
  intro st mid tid
  refine ⟨fun op => applyReadOp_grows st op mid tid, ?_⟩
  intro ops
  induction ops generalizing st with
  | nil => exact List.prefix_rfl
  | cons op ops ih =>
    have hstep : readOf st mid tid <+: readOf (applyReadOp st op) mid tid := by
      rcases applyReadOp_grows st op mid tid with h | h
      · rw [h]
      · rw [h]
        exact List.prefix_append _ _
    exact hstep.trans (ih (applyReadOp st op))

/-! ## C8 — fan-out resilience of `send_personal_message` -/

/-- A user id absent from the keys has no entry. -/
theorem connsOf_eq_none (reg : Registry) (uid : String)
    (h : uid ∉ reg.map Prod.fst) : connsOf reg uid = none := by
  induction reg with
  | nil => rfl
  | cons e rest ih =>
    have he : e.1 ≠ uid := fun hfe => h (by simp [hfe])
    rw [connsOf, if_neg he]
    exact ih (fun hm => h (List.mem_cons_of_mem _ hm))

/-- A user with no entry keeps no entry after `disconnect`. -/
theorem connsOf_disconnect_none (reg : Registry) (uid : String) (c : Conn)
    (h : connsOf reg uid = none) :
    connsOf (disconnect reg uid c) uid = none := by
  induction reg with
  | nil => rfl
  | cons e rest ih =>
    by_cases he : e.1 = uid
    · rw [connsOf, if_pos he] at h
      exact absurd h (by simp)
    · rw [connsOf, if_neg he] at h
      rw [disconnect, if_neg he, connsOf, if_neg he]
      exact ih h

/-- Disconnect keeps the key list a sublist of the original. -/
theorem disconnect_keys_sublist (reg : Registry) (uid : String) (c : Conn) :
    List.Sublist ((disconnect reg uid c).map Prod.fst)
      (reg.map Prod.fst) := by
  induction reg with
  | nil => simp [disconnect]
  | cons e rest ih =>
    rw [disconnect]
    by_cases he : e.1 = uid
    · rw [if_pos he]
      by_cases hemp : ((e.2.erase c).isEmpty) = true
      · rw [if_pos hemp]
        exact List.sublist_cons_of_sublist _ (List.Sublist.refl _)
      · rw [if_neg hemp]
        simp
    · rw [if_neg he]
      simpa using ih

/-- Effect of one `disconnect` on the user's own entry, for a registry
with pairwise-distinct keys: the connection is erased, and the entry is
gone when the set became empty. -/
theorem connsOf_disconnect (reg : Registry) (uid : String) (c : Conn)
    (hk : (reg.map Prod.fst).Nodup) (l : List Conn)
    (h : connsOf reg uid = some l) :
    connsOf (disconnect reg uid c) uid =
      if (l.erase c).isEmpty then none else some (l.erase c) := by
  induction reg with
  | nil => simp [connsOf] at h
  | cons e rest ih =>
    by_cases he : e.1 = uid
    · rw [connsOf, if_pos he] at h
      cases h
      rw [disconnect, if_pos he]
      by_cases hemp : ((e.2.erase c).isEmpty) = true
      · rw [if_pos hemp, if_pos hemp]
        have hnot : uid ∉ rest.map Prod.fst := by
          have hm := (List.nodup_cons.mp hk).1
          rwa [he] at hm
        exact connsOf_eq_none rest uid hnot
      · rw [if_neg hemp, if_neg hemp, connsOf, if_pos he]
    · rw [connsOf, if_neg he] at h
      rw [disconnect, if_neg he, connsOf, if_neg he]
      exact ih (List.nodup_cons.mp hk).2 h

/-- A lost entry stays lost across a whole fold of disconnects. -/
theorem connsOf_foldl_disconnect_none (d : List Conn) (reg : Registry)
    (uid : String) (h : connsOf reg uid = none) :
    connsOf (d.foldl (fun r c => disconnect r uid c) reg) uid = none := by
  induction d generalizing reg with
  | nil => exact h
  | cons c d ih =>
    exact ih (disconnect reg uid c) (connsOf_disconnect_none reg uid c h)

/-- Folding `disconnect` over a batch of connections leaves the user's
entry either deleted or holding exactly the original set minus the
batch. -/
theorem connsOf_foldl_disconnect (d : List Conn) (reg : Registry)
    (uid : String) (hk : (reg.map Prod.fst).Nodup) (l : List Conn)
    (h : connsOf reg uid = some l) :
    connsOf (d.foldl (fun r c => disconnect r uid c) reg) uid = none ∨
    connsOf (d.foldl (fun r c => disconnect r uid c) reg) uid =
      some (l.diff d) := by
  induction d generalizing reg l with
  | nil => right; simpa using h
  | cons c d ih =>
    have hk1 : ((disconnect reg uid c).map Prod.fst).Nodup :=
      (disconnect_keys_sublist reg uid c).nodup hk
    have h1 := connsOf_disconnect reg uid c hk l h
    by_cases hemp : ((l.erase c).isEmpty) = true
    · rw [if_pos hemp] at h1
      left
      exact connsOf_foldl_disconnect_none d (disconnect reg uid c) uid h1
    · rw [if_neg hemp] at h1
      have h2 := ih (disconnect reg uid c) hk1 (l.erase c) h1
      rw [List.foldl_cons, List.diff_cons]
      exact h2

/-- C8: if a user has several registered connections and `send_json`
raises on some of them, `send_personal_message` still attempts the rest —
every live (non-raising) connection receives the payload exactly once —
and every failing connection is unregistered from the registry; the
function is total, so no failure propagates to the caller
(src/websocket_manager.py:47-60: the per-connection `try`/`except`
collects failures and `disconnect`s them after the loop). -/
theorem c8_send_failure_isolated :
    ∀ (reg : Registry) (uid : String) (conns : List Conn),
      (reg.map Prod.fst).Nodup →
      connsOf reg uid = some conns →
      conns.Nodup →
      (∀ c ∈ conns, c.ok = true →
        (send_personal_message reg uid).1.count c = 1) ∧
      (∀ c ∈ conns, c.ok = false →
        ((connsOf (send_personal_message reg uid).2 uid).getD
          []).contains c = false) := by
  intro reg uid conns hk hc hnd
  have hred : send_personal_message reg uid =
      (conns.filter (fun c => c.ok),
       (conns.filter (fun c => !c.ok)).foldl
         (fun r c => disconnect r uid c) reg) := by
    unfold send_personal_message
    rw [hc]
  constructor
  · intro c hmem hok
    rw [hred]
    exact List.count_eq_one_of_mem (hnd.filter _)
      (List.mem_filter.mpr ⟨hmem, hok⟩)
  · intro c hmem hok
    rw [hred]
    have hcd : c ∈ conns.filter (fun c => !c.ok) :=
      List.mem_filter.mpr ⟨hmem, by rw [hok]; rfl⟩
    rcases connsOf_foldl_disconnect (conns.filter (fun c => !c.ok)) reg uid
        hk conns hc with hres | hres
    · rw [hres]
      rfl
    · rw [hres]
      have hnotin : c ∉ conns.diff (conns.filter (fun c => !c.ok)) := by
        intro hmem2
        exact ((hnd.mem_diff_iff).mp hmem2).2 hcd
      rw [Bool.eq_false_iff]
      intro hb
      exact hnotin (List.elem_iff.mp hb)

/-- One user with three connections, of which the second raises on send;
another user's entry is untouched. -/
def regW : Registry :=
  [("u1", [⟨1, true⟩, ⟨2, false⟩, ⟨3, true⟩]), ("u2", [⟨4, true⟩])]

/-- C8 witness: on the concrete registry, the first live connection
receives the payload exactly once and the failing connection is removed
from the registry. -/
theorem c8_witness :
    (send_personal_message regW "u1").1.count ⟨1, true⟩ = 1 ∧
    ((connsOf (send_personal_message regW "u1").2 "u1").getD
      []).contains (⟨2, false⟩ : Conn) = false :=
  ⟨(c8_send_failure_isolated regW "u1"
      [⟨1, true⟩, ⟨2, false⟩, ⟨3, true⟩] (by decide) (by decide)
      (by decide)).1 ⟨1, true⟩ (by decide) (by decide),
   (c8_send_failure_isolated regW "u1"
      [⟨1, true⟩, ⟨2, false⟩, ⟨3, true⟩] (by decide) (by decide)
      (by decide)).2 ⟨2, false⟩ (by decide) (by decide)⟩

/-! ## Bridge lemmas for the two-party dedup query (C6, C9, C10) -/

/-- A user id is in `participantsOf` exactly when its row is in the
participants table. -/
theorem mem_participantsOf (st : Store) (tid u : String) :
    u ∈ participantsOf st tid ↔ (tid, u) ∈ st.participants := by
  unfold participantsOf
  constructor
  · intro h
    rcases List.mem_map.mp h with ⟨r, hr, hru⟩
    have hf := List.mem_filter.mp hr
    have h1 : r.1 = tid := eq_of_beq hf.2
    have hr2 : (tid, u) = r := by
      cases r
      cases h1
      cases hru
      rfl
    exact hr2 ▸ hf.1
  · intro h
    exact List.mem_map.mpr
      ⟨(tid, u), List.mem_filter.mpr ⟨h, by simp⟩, rfl⟩

/-- `containsAllB` unfolded to membership of rows. -/
theorem containsAllB_iff (st : Store) (tid : String) (pset : List String) :
    containsAllB st tid pset = true ↔
      ∀ u ∈ pset, (tid, u) ∈ st.participants := by
  unfold containsAllB
  rw [List.all_eq_true]
  constructor
  · intro h u hu
    exact List.elem_iff.mp (h u hu)
  · intro h u hu
    exact List.elem_iff.mpr (h u hu)

/-- If the dedup count of a thread is `2` for a two-identity set, every
identity of the set has a participant row in that thread (the `HAVING
COUNT(...) = 2` direction of src/routes/messages.py:38-43). -/
theorem contains_of_count_two (st : Store) (tid : String)
    (pset : List String) (hpn : st.participants.Nodup) (_hps : pset.Nodup)
    (h2 : pset.length = 2)
    (hc : (st.participants.filter
      (fun r => r.1 == tid && pset.contains r.2)).length = 2) :
    ∀ u ∈ pset, (tid, u) ∈ st.participants := by
  intro u hu
  set F := st.participants.filter
    (fun r => r.1 == tid && pset.contains r.2) with hF
  have hFn : F.Nodup := hpn.filter _
  have hFst : ∀ r ∈ F, r.1 = tid := by
    intro r hr
    have hpred : (r.1 == tid && pset.contains r.2) = true := by
      have hf := List.mem_filter.mp (hF ▸ hr)
      simpa using hf.2
    exact eq_of_beq ((Bool.and_eq_true _ _).mp hpred).1
  have hSnd : ∀ r ∈ F, r.2 ∈ pset := by
    intro r hr
    have hpred : (r.1 == tid && pset.contains r.2) = true := by
      have hf := List.mem_filter.mp (hF ▸ hr)
      simpa using hf.2
    exact List.elem_iff.mp ((Bool.and_eq_true _ _).mp hpred).2
  have hSn : (F.map Prod.snd).Nodup := by
    refine List.Nodup.map_on ?_ hFn
    intro x hx y hy hxy
    have hx1 := hFst x hx
    have hy1 := hFst y hy
    cases x; cases y
    cases hx1; cases hy1; cases hxy
    rfl
  have hSsub : F.map Prod.snd ⊆ pset := by
    intro x hx
    rcases List.mem_map.mp hx with ⟨r, hr, hrx⟩
    exact hrx ▸ hSnd r hr
  have hSlen : (F.map Prod.snd).length = pset.length := by
    rw [List.length_map, hc, h2]
  have hperm : List.Perm (F.map Prod.snd) pset :=
    (List.subperm_of_subset hSn hSsub).perm_of_length_le (le_of_eq hSlen.symm)
  have hu' : u ∈ F.map Prod.snd := hperm.mem_iff.mpr hu
  rcases List.mem_map.mp hu' with ⟨r, hr, hru⟩
  have hr1 := hFst r hr
  have hrow : (tid, u) = r := by
    cases r; cases hr1; cases hru; rfl
  exact hrow ▸ (List.mem_filter.mp (hF ▸ hr)).1

/-- Conversely, a thread with a participant row for each of the two
identities is counted with `2` by the dedup query. -/
theorem count_two_of_contains (st : Store) (tid : String)
    (pset : List String) (hpn : st.participants.Nodup) (hps : pset.Nodup)
    (h2 : pset.length = 2)
    (hall : ∀ u ∈ pset, (tid, u) ∈ st.participants) :
    (st.participants.filter
      (fun r => r.1 == tid && pset.contains r.2)).length = 2 := by
  set F := st.participants.filter
    (fun r => r.1 == tid && pset.contains r.2) with hF
  have hFn : F.Nodup := hpn.filter _
  have hFst : ∀ r ∈ F, r.1 = tid := by
    intro r hr
    have hpred : (r.1 == tid && pset.contains r.2) = true := by
      have hf := List.mem_filter.mp (hF ▸ hr)
      simpa using hf.2
    exact eq_of_beq ((Bool.and_eq_true _ _).mp hpred).1
  have hSnd : ∀ r ∈ F, r.2 ∈ pset := by
    intro r hr
    have hpred : (r.1 == tid && pset.contains r.2) = true := by
      have hf := List.mem_filter.mp (hF ▸ hr)
      simpa using hf.2
    exact List.elem_iff.mp ((Bool.and_eq_true _ _).mp hpred).2
  have hSn : (F.map Prod.snd).Nodup := by
    refine List.Nodup.map_on ?_ hFn
    intro x hx y hy hxy
    have hx1 := hFst x hx
    have hy1 := hFst y hy
    cases x; cases y
    cases hx1; cases hy1; cases hxy
    rfl
  have hSsub : F.map Prod.snd ⊆ pset := by
    intro x hx
    rcases List.mem_map.mp hx with ⟨r, hr, hrx⟩
    exact hrx ▸ hSnd r hr
  have hupper : F.length ≤ 2 := by
    have := (List.subperm_of_subset hSn hSsub).length_le
    rwa [List.length_map, h2] at this
  have hGsub : pset.map (fun u => (tid, u)) ⊆ F := by
    intro r hr
    rcases List.mem_map.mp hr with ⟨u, hu, hur⟩
    refine List.mem_filter.mpr ⟨hur ▸ hall u hu, ?_⟩
    cases hur
    simpa using hu
  have hGn : (pset.map (fun u => (tid, u))).Nodup := by
    refine List.Nodup.map_on ?_ hps
    intro x hx y hy hxy
    exact congrArg Prod.snd hxy
  have hlower : 2 ≤ F.length := by
    have := (List.subperm_of_subset hGn hGsub).length_le
    rwa [List.length_map, h2] at this
  exact Nat.le_antisymm hupper hlower

/-- A filter over a duplicate-free list whose predicate holds at `a` and
at nothing else yields exactly `[a]`. -/
theorem filter_eq_singleton {α : Type} (p : α → Bool) (l : List α) (a : α)
    (hnd : l.Nodup) (ha : a ∈ l) (hpa : p a = true)
    (hu : ∀ b ∈ l, p b = true → b = a) : l.filter p = [a] := by
  induction l with
  | nil => cases ha
  | cons x xs ih =>
    have hnd' := List.nodup_cons.mp hnd
    rcases List.mem_cons.mp ha with hx | hx
    · cases hx
      rw [List.filter_cons_of_pos hpa]
      have hnil : xs.filter p = [] := by
        rw [List.filter_eq_nil_iff]
        intro b hb hpb
        exact absurd ((hu b (List.mem_cons_of_mem _ hb) hpb) ▸ hb) hnd'.1
      rw [hnil]
    · have hpx : p x = false := by
        cases hpx : p x
        · rfl
        · exact absurd (((hu x (List.mem_cons_self _ _)) hpx) ▸ hx) hnd'.1
      rw [List.filter_cons_of_neg (by simp [hpx])]
      exact ih hnd'.2 hx (fun b hb hpb => hu b (List.mem_cons_of_mem _ hb) hpb)

/-- The dedup branch returns the unique thread containing both members of
the two-identity participant set, without modifying the store. -/
theorem create_thread_unique_match (st : Store) (caller : String)
    (pids : List String) (newId : String) (T : Thread)
    (hpn : st.participants.Nodup) (htn : st.threads.Nodup)
    (h2 : ((pids ++ [caller]).dedup).length = 2)
    (hex : (st.users.filter
        (fun u => ((pids ++ [caller]).dedup).contains u)).length =
      ((pids ++ [caller]).dedup).length)
    (hT : T ∈ st.threads)
    (hcont : containsAllB st T.id ((pids ++ [caller]).dedup) = true)
    (huniq : ∀ T' ∈ st.threads,
      containsAllB st T'.id ((pids ++ [caller]).dedup) = true → T' = T) :
    create_thread st caller pids newId = Except.ok (st, T.id) := by
  have hsingle : dedupMatches st ((pids ++ [caller]).dedup) = [T] := by
    apply filter_eq_singleton _ _ _ htn hT
    · have hlen := count_two_of_contains st T.id ((pids ++ [caller]).dedup)
        hpn (List.nodup_dedup _) h2 ((containsAllB_iff _ _ _).mp hcont)
      rw [hlen]
      rfl
    · intro T' hT' hp
      exact huniq T' hT' ((containsAllB_iff _ _ _).mpr
        (contains_of_count_two st T'.id _ hpn (List.nodup_dedup _) h2
          (eq_of_beq hp)))
  simp only [create_thread]
  split
  next hcond =>
    exfalso
    rw [hex] at hcond
    simp at hcond
  next hcond =>
    split
    next h2' =>
      rw [hsingle]
    next h2' =>
      exact absurd (by rw [h2]; rfl) h2'

/-! ## C6 — two-party dedup with an exact existing thread -/

/-- C6 as amended: if a two-party thread whose participant set is exactly
`{A, B}` already exists *and it is the only thread containing both A and
B*, create-thread returns that thread's identifier and creates no new
thread; when several threads contain both A and B, the single-row lookup
(`scalar_one_or_none`) raises `MultipleResultsFound` instead and no
thread is returned (creation is still prevented). -/
theorem c6_amended_dedup_unique :
    ∀ st caller pids newId T,
      st.participants.Nodup → st.threads.Nodup →
      ((pids ++ [caller]).dedup).length = 2 →
      (st.users.filter
          (fun u => ((pids ++ [caller]).dedup).contains u)).length =
        ((pids ++ [caller]).dedup).length →
      T ∈ st.threads →
      List.Perm (participantsOf st T.id) ((pids ++ [caller]).dedup) →
      (∀ T' ∈ st.threads,
        containsAllB st T'.id ((pids ++ [caller]).dedup) = true → T' = T) →
      create_thread st caller pids newId = Except.ok (st, T.id) := by
  intro st caller pids newId T hpn htn h2 hex hT hexact huniq
  refine create_thread_unique_match st caller pids newId T hpn htn h2 hex hT
    ?_ huniq
  rw [containsAllB_iff]
  intro u hu
  exact (mem_participantsOf st T.id u).mp (hexact.mem_iff.mpr hu)

/-- C6 witness: on the machine holding only the exact `{A, B}` thread
`T1`, create-thread for `{A, B}` returns `T1` and the store is
unchanged. -/
theorem c6_witness :
    create_thread exactStore "A" ["B"] "NEW" =
      Except.ok (exactStore, "T1") :=
  c6_amended_dedup_unique exactStore "A" ["B"] "NEW" ⟨"T1", 0⟩ (by decide)
    (by decide) (by decide) (by decide) (by decide) (by decide) (by decide)

/-- C6 counterexample: the exact two-party thread `T1` for `{A, B}`
exists (second and third conjuncts), yet create-thread for `{A, B}` does
not return its identifier: the group thread `T2` also contains both, the
dedup subquery matches both rows and `scalar_one_or_none()` raises
`MultipleResultsFound` — the call errors instead of returning `T1`. -/
theorem c6_counterexample :
    create_thread dupStore "A" ["B"] "NEW" =
      Except.error RestErr.multipleResults ∧
    (⟨"T1", 0⟩ : Thread) ∈ dupStore.threads ∧
    List.Perm (participantsOf dupStore "T1") ["A", "B"] :=
  ⟨rfl, by decide, by decide⟩

/-! ## C9 — any thread containing both identities blocks creation -/

/-- C9 as amended: when the deduplicated participant set is exactly
`{A, B}`, the existence of a thread containing both A and B (even with a
strictly larger participant set — the query counts only rows whose user
is in `{A, B}`, never the thread's total size) prevents creation: every
successful outcome returns the store unchanged.  When exactly one such
thread exists it is the one returned; with several, the lookup raises and
nothing is returned. -/
theorem c9_amended_contains_blocks_creation :
    ∀ st caller pids newId T,
      st.participants.Nodup → st.threads.Nodup →
      ((pids ++ [caller]).dedup).length = 2 →
      T ∈ st.threads →
      containsAllB st T.id ((pids ++ [caller]).dedup) = true →
      (∀ st' tid,
        create_thread st caller pids newId = Except.ok (st', tid) →
        st' = st) ∧
      ((st.users.filter
          (fun u => ((pids ++ [caller]).dedup).contains u)).length =
        ((pids ++ [caller]).dedup).length →
       (∀ T' ∈ st.threads,
         containsAllB st T'.id ((pids ++ [caller]).dedup) = true → T' = T) →
       create_thread st caller pids newId = Except.ok (st, T.id)) := by
  intro st caller pids newId T hpn htn h2 hT hcont
  constructor
  · intro st' tid hok
    simp only [create_thread] at hok
    split at hok
    · exact absurd hok (by simp)
    next hcond =>
      split at hok
      next htwo =>
        split at hok
        next hM =>
          exfalso
          have hpredT : ((st.participants.filter (fun r =>
              r.1 == T.id &&
                ((pids ++ [caller]).dedup).contains r.2)).length == 2) =
              true := by
            rw [count_two_of_contains st T.id _ hpn (List.nodup_dedup _) h2
              ((containsAllB_iff _ _ _).mp hcont)]
            rfl
          have hmem : T ∈ dedupMatches st ((pids ++ [caller]).dedup) :=
            List.mem_filter.mpr ⟨hT, hpredT⟩
          rw [hM] at hmem
          cases hmem
        next t hM =>
          injection hok with h
          injection h with h1 h2'
          exact h1.symm
        next hM =>
          exact absurd hok (by simp)
      next htwo =>
        exact absurd (by rw [h2]; rfl) htwo
  · intro hex huniq
    exact create_thread_unique_match st caller pids newId T hpn htn h2 hex
      hT hcont huniq

/-- C9 witness: on the machine holding only the group thread `T2` (whose
participant set `{A, B, C}` strictly contains `{A, B}`), create-thread for
`{A, B}` returns `T2` and creates nothing. -/
theorem c9_witness :
    create_thread superStore "A" ["B"] "NEW" =
      Except.ok (superStore, "T2") :=
  (c9_amended_contains_blocks_creation superStore "A" ["B"] "NEW"
    ⟨"T2", 0⟩ (by decide) (by decide) (by decide) (by decide)
    (by decide)).2 (by decide) (by decide)

/-- C9 counterexample: the thread `T2` contains both A and B (second and
third conjuncts), but it is not "returned instead": a second thread `T3`
also contains both, so the single-row lookup raises
`MultipleResultsFound` and the call returns no thread at all. -/
theorem c9_counterexample :
    create_thread super2Store "A" ["B"] "NEW" =
      Except.error RestErr.multipleResults ∧
    (⟨"T2", 0⟩ : Thread) ∈ super2Store.threads ∧
    containsAllB super2Store "T2" ["B", "A"] = true :=
  ⟨rfl, by decide, by decide⟩

/-! ## C10 — the caller is always a participant of the returned thread -/

/-- C10: the caller's identity is added to the participant set before the
existence check, the dedup lookup and creation
(src/routes/messages.py:19-21), so every thread create-thread returns —
deduplicated or newly created — has the caller among its participants
(stated for stores whose participant table is duplicate-free, as the
primary key guarantees). -/
theorem c10_creator_in_participants :
    ∀ st caller pids newId st' tid,
      st.participants.Nodup →
      create_thread st caller pids newId = Except.ok (st', tid) →
      (tid, caller) ∈ st'.participants := by
  intro st caller pids newId st' tid hpn hok
  have hcaller : caller ∈ (pids ++ [caller]).dedup :=
    List.mem_dedup.mpr (List.mem_append_right _ (List.mem_singleton.mpr rfl))
  simp only [create_thread] at hok
  split at hok
  · exact absurd hok (by simp)
  next hcond =>
    split at hok
    next htwo =>
      split at hok
      next hM =>
        injection hok with h
        injection h with h1 h2'
        cases h1
        cases h2'
        exact List.mem_append_right _
          (List.mem_map.mpr ⟨caller, hcaller, rfl⟩)
      next t hM =>
        injection hok with h
        injection h with h1 h2'
        cases h1
        cases h2'
        have ht : t ∈ dedupMatches st ((pids ++ [caller]).dedup) := by
          rw [hM]
          exact List.mem_singleton.mpr rfl
        unfold dedupMatches at ht
        have hmf := List.mem_filter.mp ht
        have hpred : ((st.participants.filter (fun r =>
            r.1 == t.id &&
              ((pids ++ [caller]).dedup).contains r.2)).length == 2) =
            true := by
          simpa using hmf.2
        exact contains_of_count_two st t.id _ hpn (List.nodup_dedup _)
          (eq_of_beq htwo) (eq_of_beq hpred) caller hcaller
      next hM =>
        exact absurd hok (by simp)
    next htwo =>
      injection hok with h
      injection h with h1 h2'
      cases h1
      cases h2'
      exact List.mem_append_right _
        (List.mem_map.mpr ⟨caller, hcaller, rfl⟩)

/-- The store produced by creating a fresh thread for `{A, B}` on
`freshStore`. -/
def freshAfter : Store :=
  ⟨["A", "B"], [⟨"NEW", 7⟩], [("NEW", "B"), ("NEW", "A")], [], 0, 7⟩

/-- C10 witness: creating a thread on the empty machine yields a thread
with the caller among its participants. -/
theorem c10_witness : ("NEW", "A") ∈ freshAfter.participants :=
  c10_creator_in_participants freshStore "A" ["B"] "NEW" freshAfter "NEW"
    (by decide) rfl

end Gateway
